import Mathlib

/-!
# slack-deploy-bot: the status loop of `argo/argo.go` and the pipeline of `main.go`

A shallow embedding of the two pieces of control flow of the repository:

* `argo.DoStatusLoop` (the budgeted status loop with its three counters), and
* `run` in `main.go` (the fail-fast pipeline followed by the inline polling loop).

Conventions of the embedding.

* A status map is walked by Go's `range` in an order the language does not fix.  A snapshot
  is therefore given as the list of `(name, state)` pairs in the order in which the walk
  visits them.
* Collaborators living outside the two source files (GitHub, ECR, Slack, the HTTP
  transport) are arbitrary result-returning functions; messages handed to
  `slackbot.SendMessage` are recorded in order.
* `time.Sleep`, `log.Printf` and `fmt.Printf` have no effect on control flow or on the
  narration and are left out.
* The counters are Go `int`s.  Each grows by at most one per walked resource, so no run
  comes anywhere near the 64-bit range and `Nat` is exact.
* Loops take a fuel argument; `none` (or `returned = false`) means the fuel ran out before
  the loop left.
* Inputs on which the Go code panics (a response body on which the type assertions of
  argo.go 159-164 fail, a `nil` response in main.go 38) are outside the embedding.
-/

namespace DeployBot

/-- A status snapshot, in the order in which `range` walks it: `(deployment, sync state)`. -/
abbrev Snapshot := List (String × String)

/-- Number of resources of a snapshot whose state is `Synced`. -/
def syncedIn (snap : Snapshot) : Nat :=
  (snap.filter (fun p => p.2 = "Synced")).length

namespace Argo

/-- The three results of `getDeploymentStatus`: the status map (`nil` on error), the
message, and the error. -/
structure PollResult where
  status : Option Snapshot
  msg : String
  err : Option String
deriving DecidableEq

/-- The message of argo.go 149 for the transport error `e`. -/
def statusErrorMsg (e : String) : String :=
  "_Error getting deployment status: `" ++ e ++ "`_"

/-- The function `getDeploymentStatus` (argo.go 144-169).  The argument is what the HTTP
round trip and the decoding of the body produced: a transport error, or the content of
`deploymentStatus`, in the order in which the caller's `range` walks it. -/
def getDeploymentStatus (resp : Except String Snapshot) : PollResult :=
  match resp with
  | .error e => ⟨none, statusErrorMsg e, some e⟩
  | .ok deploymentStatus => ⟨some deploymentStatus, "", none⟩

/-- Local variables of `DoStatusLoop` (argo.go 88-91), the number of status polls issued
so far, and the messages sent to Slack so far, oldest first. -/
structure LoopState where
  loopCount : Nat
  outOfSyncCount : Nat
  unknownCount : Nat
  syncCount : Nat
  polls : Nat
  sent : List String
deriving DecidableEq

/-- The call `slackbot.SendMessage(connInfo, msg)`. -/
def LoopState.send (st : LoopState) (msg : String) : LoopState :=
  ⟨st.loopCount, st.outOfSyncCount, st.unknownCount, st.syncCount, st.polls, st.sent ++ [msg]⟩

/-- The `switch s` of argo.go 109-116. -/
def LoopState.tally (st : LoopState) (s : String) : LoopState :=
  if s = "OutOfSync" then
    ⟨st.loopCount, st.outOfSyncCount + 1, st.unknownCount, st.syncCount, st.polls, st.sent⟩
  else if s = "Unknown" then
    ⟨st.loopCount, st.outOfSyncCount, st.unknownCount + 1, st.syncCount, st.polls, st.sent⟩
  else if s = "Synced" then
    ⟨st.loopCount, st.outOfSyncCount, st.unknownCount, st.syncCount + 1, st.polls, st.sent⟩
  else st

/-- The narration of one resource, argo.go 117. -/
def resourceMsg (d s : String) : String :=
  "_" ++ d ++ ": `" ++ s ++ "`_"

/-- The `for d, s := range status` walk of argo.go 108-131: count the state, then narrate
and go on under one of the two gates, or `break`. -/
def walk : Snapshot → LoopState → LoopState
  | [], st => st
  | (d, s) :: rest, st =>
    let st1 := st.tally s
    let msg := resourceMsg d s
    if s = "OutOfSync" ∧ st1.outOfSyncCount < 2 then walk rest (st1.send msg)
    else if s = "Unknown" ∧ st1.unknownCount < 2 then walk rest (st1.send msg)
    else st1

/-- One pass of the loop body from the poll to `loopCount++` (argo.go 102-134). -/
def iteration (poll : Nat → Except String Snapshot) (st : LoopState) : LoopState :=
  let r := getDeploymentStatus (poll st.polls)
  let st1 : LoopState :=
    ⟨st.loopCount, st.outOfSyncCount, st.unknownCount, st.syncCount, st.polls + 1, st.sent⟩
  let st2 := match r.err with
    | some _ => st1.send r.msg
    | none => st1
  let st3 := match r.status with
    | some status => walk status st2
    | none => st2
  ⟨st3.loopCount + 1, st3.outOfSyncCount, st3.unknownCount, st3.syncCount, st3.polls, st3.sent⟩

/-- The message of argo.go 95-97; `server` is the value of `ARGOCD_SERVER`. -/
def giveUpMsg (server app : String) : String :=
  "_ Potential `Sync` error, please investigate: " ++ (server ++ "/" ++ ("applications/" ++ app))
    ++ " _"

/-- The message of argo.go 137. -/
def syncedMsg (app : String) : String :=
  "`_" ++ app ++ "` Synced_"

/-- The `for` loop of argo.go 92-141, from an arbitrary state. -/
def statusLoop (server app : String) (poll : Nat → Except String Snapshot) :
    Nat → LoopState → Option LoopState
  | 0, _ => none
  | fuel + 1, st =>
    if st.loopCount ≥ 6 then some (st.send (giveUpMsg server app))
    else
      let st1 := iteration poll st
      if st1.syncCount = 2 then some (st1.send (syncedMsg app))
      else statusLoop server app poll fuel st1

/-- The state in which `DoStatusLoop` enters its loop (argo.go 88-91). -/
def initState : LoopState := ⟨0, 0, 0, 0, 0, []⟩

/-- The function `DoStatusLoop` (argo.go 86-142): the final state, or `none` when the fuel runs out. -/
def DoStatusLoop (server app : String) (poll : Nat → Except String Snapshot) (fuel : Nat) :
    Option LoopState :=
  statusLoop server app poll fuel initState

/-- The state with which the loop arrives at the top of its body for the `k+1`-th time,
or `none` when it has left before: after the give-up branch, or after a pass that ended
with `syncCount == 2`. -/
def iterStart (poll : Nat → Except String Snapshot) : Nat → Option LoopState
  | 0 => some initState
  | k + 1 =>
    match iterStart poll k with
    | none => none
    | some st =>
      if st.loopCount ≥ 6 then none
      else if (iteration poll st).syncCount = 2 then none
      else some (iteration poll st)

/-- The condition under which the walk narrates a resource in state `s` and goes on to the
next one (argo.go 118 and 121): the counters are read after `s` has been counted. -/
def gateOpen (st : LoopState) (s : String) : Prop :=
  (s = "OutOfSync" ∧ (st.tally s).outOfSyncCount < 2) ∨
    (s = "Unknown" ∧ (st.tally s).unknownCount < 2)

/-- The gate as the specification words it, for comparison with `gateOpen`: the first two
occurrences of `OutOfSync`, and of `Unknown`, across the run are narrated, so the gate is
open while fewer than two occurrences have been counted before the current one. -/
def specGateOpen (st : LoopState) (s : String) : Prop :=
  (s = "OutOfSync" ∧ st.outOfSyncCount < 2) ∨ (s = "Unknown" ∧ st.unknownCount < 2)

/-- The two ways in which the loop leaves, in terms of the states at the top of its body:
through the give-up branch on the seventh arrival, or through `syncCount == 2` at the end
of one of the first six passes. -/
def Outcome (server app : String) (poll : Nat → Except String Snapshot)
    (final : LoopState) : Prop :=
  (∃ st, iterStart poll 6 = some st ∧ final = st.send (giveUpMsg server app)) ∨
    (∃ k st, k < 6 ∧ iterStart poll k = some st ∧ (iteration poll st).syncCount = 2 ∧
      final = (iteration poll st).send (syncedMsg app))

/-- A message that is neither of the two messages with which the loop leaves. -/
def Plain (server app m : String) : Prop :=
  m ≠ giveUpMsg server app ∧ m ≠ syncedMsg app

/-- The loop leaves through the `syncCount == 2` branch at the end of pass `k`, passes being
counted from 1. -/
def succeedsAt (poll : Nat → Except String Snapshot) : Nat → Bool
  | 0 => false
  | k + 1 =>
    match iterStart poll k with
    | none => false
    | some st => decide (st.loopCount < 6) && decide ((iteration poll st).syncCount = 2)

/-- Count and narrate every resource of a list, in order: what the walk does to the
resources it does not stop at. -/
def processAll : Snapshot → LoopState → LoopState
  | [], st => st
  | (d, s) :: rest, st => processAll rest ((st.tally s).send (resourceMsg d s))

/-- Every resource of the list finds its gate open when the walk reaches it. -/
def allPass : Snapshot → LoopState → Prop
  | [], _ => True
  | (d, s) :: rest, st => gateOpen st s ∧ allPass rest ((st.tally s).send (resourceMsg d s))

/-- Two polls: a snapshot with two `Synced` deployments, then snapshots with one. -/
def twoThenOne : Nat → Except String Snapshot :=
  fun n => if n = 0 then .ok [("web", "Synced"), ("worker", "Synced")]
    else .ok [("web", "Synced")]

/-- Every poll reports the one deployment `web` as `OutOfSync`. -/
def alwaysOutOfSync : Nat → Except String Snapshot :=
  fun _ => .ok [("web", "OutOfSync")]

/-- Every poll fails with the transport error `timeout`. -/
def alwaysTimeout : Nat → Except String Snapshot :=
  fun _ => .error "timeout"

end Argo

namespace Main

/-- The collaborators `run` calls (main.go 24-125), named as in the source. -/
inductive Collab
  | githubClient
  | CheckArgsValid
  | GetPullRequest
  | ConfirmImageExists
  | ConfirmChecksCompleted
  | DownloadValues
  | UpdateValues
  | PushCommit
  | argoClient
  | GetArgoDeploymentStatus
deriving DecidableEq

/-- One observable effect of `run`: a call of a collaborator, or a message handed to
`slackbot.SendMessage`. -/
inductive Event
  | call (c : Collab)
  | send (msg : String)
deriving DecidableEq

/-- What `run` reads of the pull request returned by `GetPullRequest`: `GetHTMLURL()`. -/
structure PullRequest where
  htmlURL : String
deriving DecidableEq

/-- The results of the collaborators of `run`, each an arbitrary function of the arguments
the source passes (the context and the client handles are left out).  An `error` result is
`none` for `nil` and `some text` otherwise; `GetArgoDeploymentStatus` is given the number
of earlier calls, so that successive polls may answer differently. -/
structure Env where
  CheckArgsValid : String → Bool × String × String × String
  Atoi : String → Int
  GetPullRequest : String → Int → PullRequest × Nat × Option String
  ConfirmImageExists : PullRequest → String → Bool × String × String
  ConfirmChecksCompleted : String → String → Bool
  DownloadValues : String → String × String × String × Option String
  UpdateValues : String → String → String × String × String
  PushCommit : String → String → String → String → String × Option String
  GetArgoDeploymentStatus : Nat → String → Snapshot × String

/-- What `run` has done: its effects in order, and whether it has returned (`false`: the
fuel of the polling loop ran out first). -/
structure RunResult where
  trace : List Event
  returned : Bool
deriving DecidableEq

/-- The `%s` rendering of an `error` value by `fmt.Sprintf`. -/
def fmtErr : Option String → String
  | some e => e
  | none => "%!s(<nil>)"

/-- The narration of one resource, main.go 110. -/
def statusMsg (d s : String) : String :=
  "_Status: " ++ d ++ ":`" ++ s ++ "`_"

/-- The `for d, s := range deployStatus` walk of main.go 109-118: narrate, then count and
go on when `Synced`, `break` otherwise.  Returns `deploySynced` and the trace. -/
def walkStatus : Snapshot → Nat → List Event → Nat × List Event
  | [], deploySynced, tr => (deploySynced, tr)
  | (d, s) :: rest, deploySynced, tr =>
    let tr1 := tr ++ [Event.send (statusMsg d s)]
    if s = "Synced" then walkStatus rest (deploySynced + 1) tr1
    else (deploySynced, tr1)

/-- The polling loop of main.go 96-124; `n` is the number of polls already issued. -/
def pollLoop (env : Env) (app : String) : Nat → Nat → List Event → RunResult
  | 0, _, tr => ⟨tr, false⟩
  | fuel + 1, n, tr =>
    let r := env.GetArgoDeploymentStatus n app
    let tr1 := tr ++ [Event.call Collab.argoClient, Event.call Collab.GetArgoDeploymentStatus]
    if r.2 ≠ "" then ⟨tr1 ++ [Event.send r.2], true⟩
    else
      let w := walkStatus r.1 0 tr1
      if w.1 = 2 then ⟨w.2, true⟩
      else pollLoop env app fuel (n + 1) w.2

/-- The part of `run` after the pull-request lookup, main.go 52-125. -/
def runAfterFetch (env : Env) (app : String) (pr : PullRequest) (fuel : Nat)
    (tr : List Event) : RunResult :=
  let img := env.ConfirmImageExists pr app
  let tagExists := img.1
  let imgTag := img.2.1
  let sha := img.2.2
  let tr1 := tr ++ [Event.call Collab.ConfirmImageExists]
  if tagExists ≠ true then
    ⟨tr1 ++ [Event.send ("_`" ++ imgTag ++ "` does not exist in ECR_")], true⟩
  else
    let completed := env.ConfirmChecksCompleted app sha
    let tr2 := tr1 ++ [Event.call Collab.ConfirmChecksCompleted]
    if completed ≠ true then
      ⟨tr2 ++ [Event.send ("`_" ++ imgTag ++
        "` has not been promoted to ECR; Github Actions are still underway_")], true⟩
    else
      let dl := env.DownloadValues app
      let rdClser := dl.1
      let repoContent := dl.2.1
      let dlMsg := dl.2.2.1
      let tr3 := tr2 ++ [Event.call Collab.DownloadValues]
      match dl.2.2.2 with
      | some e => ⟨tr3 ++ [Event.send ("_Error " ++ e ++ "_")], true⟩
      | none =>
        let tr4 := tr3 ++ [Event.send dlMsg]
        let up := env.UpdateValues rdClser imgTag
        let newVFC := up.1
        let msg := up.2.2
        let tr5 := tr4 ++ [Event.call Collab.UpdateValues]
        if msg ≠ "" then ⟨tr5 ++ [Event.send msg], true⟩
        else
          let pc := env.PushCommit app imgTag newVFC repoContent
          let deployMsg := pc.1
          let tr6 := tr5 ++ [Event.call Collab.PushCommit]
          match pc.2 with
          | some e => ⟨tr6 ++ [Event.send ("_Error " ++ e ++ "_")], true⟩
          | none => pollLoop env app fuel 0 (tr6 ++ [Event.send deployMsg])

/-- The function `run` of main.go 24-126 on the text of the mention. -/
def run (env : Env) (text : String) (fuel : Nat) : RunResult :=
  let tr0 := [Event.call Collab.githubClient, Event.call Collab.CheckArgsValid]
  let args := env.CheckArgsValid text
  let valid := args.1
  let msg := args.2.1
  let app := args.2.2.1
  let ref := args.2.2.2
  if valid ≠ true then ⟨tr0 ++ [Event.send msg], true⟩
  else
    let prNum := env.Atoi ref
    let got := env.GetPullRequest app prNum
    let pr := got.1
    let statusCode := got.2.1
    let err := got.2.2
    let tr1 := tr0 ++ [Event.call Collab.GetPullRequest]
    if statusCode = 200 then
      runAfterFetch env app pr fuel (tr1 ++ [Event.send ("_Fetching " ++ pr.htmlURL ++ " _")])
    else if statusCode = 404 ∧ ref ≠ "main" then
      ⟨tr1 ++ [Event.send ("_Error: " ++ fmtErr err ++ "_")], true⟩
    else
      runAfterFetch env app pr fuel
        (tr1 ++ [Event.send ("_Fetching `" ++ ref ++ "` for " ++ app ++ " app_")])

/-- The messages sent to Slack, in order. -/
def narrations : List Event → List String
  | [] => []
  | Event.send m :: tr => m :: narrations tr
  | Event.call _ :: tr => narrations tr

/-- The number of status polls issued. -/
def pollCount : List Event → Nat
  | [] => 0
  | Event.call Collab.GetArgoDeploymentStatus :: tr => pollCount tr + 1
  | _ :: tr => pollCount tr

/-- The length of the run of `Synced` resources with which a snapshot starts. -/
def leadingSynced : Snapshot → Nat
  | [] => 0
  | (_, s) :: rest => if s = "Synced" then leadingSynced rest + 1 else 0

/-! The values `run` computes on its way, as functions of the collaborators' results. -/

/-- The application named by the mention. -/
def appOf (env : Env) (text : String) : String := (env.CheckArgsValid text).2.2.1

/-- The reference named by the mention. -/
def refOf (env : Env) (text : String) : String := (env.CheckArgsValid text).2.2.2

/-- The result of the pull-request lookup. -/
def lookupOf (env : Env) (text : String) : PullRequest × Nat × Option String :=
  env.GetPullRequest (appOf env text) (env.Atoi (refOf env text))

/-- The result of `ConfirmImageExists`. -/
def imageOf (env : Env) (text : String) : Bool × String × String :=
  env.ConfirmImageExists (lookupOf env text).1 (appOf env text)

/-- The image tag. -/
def imgTagOf (env : Env) (text : String) : String := (imageOf env text).2.1

/-- The result of `DownloadValues`. -/
def downloadOf (env : Env) (text : String) : String × String × String × Option String :=
  env.DownloadValues (appOf env text)

/-- The result of `UpdateValues`. -/
def updateOf (env : Env) (text : String) : String × String × String :=
  env.UpdateValues (downloadOf env text).1 (imgTagOf env text)

/-- The result of `PushCommit`. -/
def pushOf (env : Env) (text : String) : String × Option String :=
  env.PushCommit (appOf env text) (imgTagOf env text) (updateOf env text).1
    (downloadOf env text).2.1

/-- The result of the `n+1`-th status poll. -/
def pollOf (env : Env) (text : String) (n : Nat) : Snapshot × String :=
  env.GetArgoDeploymentStatus n (appOf env text)

/-- The narration of main.go 39 or 48 with which a resolved reference is announced. -/
def fetchMsg (env : Env) (text : String) : String :=
  if (lookupOf env text).2.1 = 200 then "_Fetching " ++ (lookupOf env text).1.htmlURL ++ " _"
  else "_Fetching `" ++ refOf env text ++ "` for " ++ appOf env text ++ " app_"

/-- The narration of main.go 54. -/
def absentMsg (imgTag : String) : String :=
  "_`" ++ imgTag ++ "` does not exist in ECR_"

/-- The stages of `run` that can fail, in order. -/
inductive Stage
  | validation
  | lookup
  | image
  | checks
  | download
  | update
  | push
deriving DecidableEq

/-- The position of a stage in the pipeline. -/
def Stage.index : Stage → Nat
  | .validation => 1
  | .lookup => 2
  | .image => 3
  | .checks => 4
  | .download => 5
  | .update => 6
  | .push => 7

/-- The stage a collaborator belongs to; the status polls come after all of `Stage`. -/
def Collab.stage : Collab → Nat
  | .githubClient => 0
  | .CheckArgsValid => 1
  | .GetPullRequest => 2
  | .ConfirmImageExists => 3
  | .ConfirmChecksCompleted => 4
  | .DownloadValues => 5
  | .UpdateValues => 6
  | .PushCommit => 7
  | .argoClient => 8
  | .GetArgoDeploymentStatus => 8

/-- The arguments are valid (main.go 29). -/
def validOK (env : Env) (text : String) : Prop := (env.CheckArgsValid text).1 = true

/-- The lookup is not the failure of main.go 42. -/
def lookupOK (env : Env) (text : String) : Prop :=
  (lookupOf env text).2.1 = 200 ∨
    ¬ ((lookupOf env text).2.1 = 404 ∧ refOf env text ≠ "main")

/-- The image exists (main.go 53). -/
def imageOK (env : Env) (text : String) : Prop := (imageOf env text).1 = true

/-- The checks have completed (main.go 60). -/
def checksOK (env : Env) (text : String) : Prop :=
  env.ConfirmChecksCompleted (appOf env text) (imageOf env text).2.2 = true

/-- The download returned no error (main.go 67). -/
def downloadOK (env : Env) (text : String) : Prop := (downloadOf env text).2.2.2 = none

/-- The update returned no message (main.go 76). -/
def updateOK (env : Env) (text : String) : Prop := (updateOf env text).2.2 = ""

/-- The push returned no error (main.go 82). -/
def pushOK (env : Env) (text : String) : Prop := (pushOf env text).2 = none

/-- Stage `s` is reached, all stages before it having passed, and fails. -/
def failsAt (env : Env) (text : String) : Stage → Prop
  | .validation => ¬ validOK env text
  | .lookup => validOK env text ∧ (lookupOf env text).2.1 = 404 ∧ refOf env text ≠ "main"
  | .image => validOK env text ∧ lookupOK env text ∧ ¬ imageOK env text
  | .checks => validOK env text ∧ lookupOK env text ∧ imageOK env text ∧ ¬ checksOK env text
  | .download => validOK env text ∧ lookupOK env text ∧ imageOK env text ∧ checksOK env text ∧
      ¬ downloadOK env text
  | .update => validOK env text ∧ lookupOK env text ∧ imageOK env text ∧ checksOK env text ∧
      downloadOK env text ∧ ¬ updateOK env text
  | .push => validOK env text ∧ lookupOK env text ∧ imageOK env text ∧ checksOK env text ∧
      downloadOK env text ∧ updateOK env text ∧ ¬ pushOK env text

/-- The error message `run` sends when stage `s` fails. -/
def stageError (env : Env) (text : String) : Stage → String
  | .validation => (env.CheckArgsValid text).2.1
  | .lookup => "_Error: " ++ fmtErr (lookupOf env text).2.2 ++ "_"
  | .image => absentMsg (imgTagOf env text)
  | .checks => "`_" ++ imgTagOf env text ++
      "` has not been promoted to ECR; Github Actions are still underway_"
  | .download => "_Error " ++ ((downloadOf env text).2.2.2).getD "" ++ "_"
  | .update => (updateOf env text).2.2
  | .push => "_Error " ++ ((pushOf env text).2).getD "" ++ "_"

/-- Every stage of the pipeline passes, so that `run` enters its polling loop. -/
def pipelinePasses (env : Env) (text : String) : Prop :=
  validOK env text ∧ lookupOK env text ∧ imageOK env text ∧ checksOK env text ∧
    downloadOK env text ∧ updateOK env text ∧ pushOK env text

/-- The effects of a pipeline all of whose stages pass, up to the polling loop. -/
def pipelineTrace (env : Env) (text : String) : List Event :=
  [Event.call Collab.githubClient, Event.call Collab.CheckArgsValid,
    Event.call Collab.GetPullRequest, Event.send (fetchMsg env text),
    Event.call Collab.ConfirmImageExists, Event.call Collab.ConfirmChecksCompleted,
    Event.call Collab.DownloadValues, Event.send (downloadOf env text).2.2.1,
    Event.call Collab.UpdateValues, Event.call Collab.PushCommit,
    Event.send (pushOf env text).1]

/-- The request of the end-to-end scenarios: application `checkout`, reference `42`, pull
request 42 found, image tag `checkout:abc123`; `tagExists` is the answer of
`ConfirmImageExists`, `polls` the answers of the status source, every other stage passes. -/
def checkoutEnv (tagExists : Bool) (polls : Nat → Snapshot × String) : Env where
  CheckArgsValid := fun _ => (true, "", "checkout", "42")
  Atoi := fun _ => 42
  GetPullRequest := fun _ _ => (⟨"https://github.com/acme/checkout/pull/42"⟩, 200, none)
  ConfirmImageExists := fun _ _ => (tagExists, "checkout:abc123", "abc123")
  ConfirmChecksCompleted := fun _ _ => true
  DownloadValues := fun _ => ("image: old", "values.yaml", "_Downloaded values_", none)
  UpdateValues := fun _ _ => ("image: new", "image: old", "")
  PushCommit := fun _ _ _ _ => ("_Deploying checkout:abc123_", none)
  GetArgoDeploymentStatus := fun n _ => polls n

/-- A request for pull request 17 of `checkout`, which the lookup does not find. -/
def missingPREnv : Env where
  CheckArgsValid := fun _ => (true, "", "checkout", "17")
  Atoi := fun _ => 17
  GetPullRequest := fun _ _ => (⟨""⟩, 404, some "404 Not Found")
  ConfirmImageExists := fun _ _ => (true, "checkout:abc123", "abc123")
  ConfirmChecksCompleted := fun _ _ => true
  DownloadValues := fun _ => ("image: old", "values.yaml", "_Downloaded values_", none)
  UpdateValues := fun _ _ => ("image: new", "image: old", "")
  PushCommit := fun _ _ _ _ => ("_Deploying checkout:abc123_", none)
  GetArgoDeploymentStatus := fun _ _ => ([("web", "Synced"), ("worker", "Synced")], "")

/-- A status source that reports `web` as `Progressing` on every poll. -/
def alwaysProgressing : Nat → Snapshot × String :=
  fun _ => ([("web", "Progressing")], "")

/-- A status source whose first snapshot holds two `Synced` deployments behind one that is
`Progressing`. -/
def syncedBehind : Nat → Snapshot × String :=
  fun _ => ([("db", "Progressing"), ("web", "Synced"), ("worker", "Synced")], "")

/-- The status source of the end-to-end scenario: `web` is `Progressing` at the first poll,
`web` and `worker` are `Synced` from the second. -/
def progressingThenSynced : Nat → Snapshot × String :=
  fun n => if n = 0 then ([("web", "Progressing")], "")
    else ([("web", "Synced"), ("worker", "Synced")], "")

end Main

end DeployBot

/-! ## Theorems -/

namespace DeployBot

namespace Argo

/-! ### The messages are pairwise distinct -/

theorem last_two_inj {α : Type} {x y : List α} {a b c d : α}
    (h : x ++ [a, b] = y ++ [c, d]) : a = c := by
  have h2 := (List.append_inj' h (by simp)).2
  simp at h2
  exact h2.1

theorem resourceMsg_plain (server app d s : String) : Plain server app (resourceMsg d s) := by
  constructor
  · intro h
    have h2 := congrArg String.data h
    simp only [resourceMsg, giveUpMsg, String.data_append] at h2
    have h3 := last_two_inj h2
    revert h3
    decide
  · intro h
    have h2 := congrArg String.data h
    simp [resourceMsg, syncedMsg, String.data_append] at h2

theorem statusErrorMsg_plain (server app e : String) :
    Plain server app (statusErrorMsg e) := by
  constructor
  · intro h
    have h2 := congrArg String.data h
    simp [statusErrorMsg, giveUpMsg, String.data_append] at h2
  · intro h
    have h2 := congrArg String.data h
    simp [statusErrorMsg, syncedMsg, String.data_append] at h2

theorem giveUpMsg_ne_syncedMsg (server app : String) : giveUpMsg server app ≠ syncedMsg app := by
  intro h
  have h2 := congrArg String.data h
  simp [giveUpMsg, syncedMsg, String.data_append] at h2

/-! ### One resource, one walk, one pass -/

theorem tally_frame (st : LoopState) (s : String) :
    (st.tally s).loopCount = st.loopCount ∧ (st.tally s).polls = st.polls ∧
      (st.tally s).sent = st.sent := by
  unfold LoopState.tally
  split_ifs <;> simp

theorem tally_counters (st : LoopState) (s : String) :
    st.outOfSyncCount ≤ (st.tally s).outOfSyncCount ∧
      st.unknownCount ≤ (st.tally s).unknownCount ∧
      st.syncCount ≤ (st.tally s).syncCount ∧ (st.tally s).syncCount ≤ st.syncCount + 1 := by
  unfold LoopState.tally
  split_ifs <;> simp

theorem tally_syncCount_of_ne (st : LoopState) (s : String) (h : s ≠ "Synced") :
    (st.tally s).syncCount = st.syncCount := by
  unfold LoopState.tally
  split_ifs <;> simp

theorem send_frame (st : LoopState) (m : String) :
    (st.send m).loopCount = st.loopCount ∧ (st.send m).polls = st.polls ∧
      (st.send m).outOfSyncCount = st.outOfSyncCount ∧
      (st.send m).unknownCount = st.unknownCount ∧ (st.send m).syncCount = st.syncCount ∧
      (st.send m).sent = st.sent ++ [m] :=
  ⟨rfl, rfl, rfl, rfl, rfl, rfl⟩

theorem walk_cons_open (d s : String) (rest : Snapshot) (st : LoopState)
    (h : gateOpen st s) :
    walk ((d, s) :: rest) st = walk rest ((st.tally s).send (resourceMsg d s)) := by
  unfold gateOpen at h
  rcases h with h | h
  · rw [walk, if_pos h]
  · by_cases h1 : s = "OutOfSync" ∧ (st.tally s).outOfSyncCount < 2
    · rw [walk, if_pos h1]
    · rw [walk, if_neg h1, if_pos h]

theorem walk_cons_closed (d s : String) (rest : Snapshot) (st : LoopState)
    (h : ¬ gateOpen st s) : walk ((d, s) :: rest) st = st.tally s := by
  unfold gateOpen at h
  rw [walk, if_neg (fun h1 => h (Or.inl h1)), if_neg (fun h2 => h (Or.inr h2))]

theorem not_gateOpen_synced (st : LoopState) : ¬ gateOpen st "Synced" := by
  unfold gateOpen
  simp

/-- What a walk leaves alone, what it may only raise, and what it may add to the
transcript. -/
theorem walk_inv (server app : String) (snap : Snapshot) :
    ∀ st : LoopState, ∃ extra : List String,
      (walk snap st).sent = st.sent ++ extra ∧ (∀ m ∈ extra, Plain server app m) ∧
      (walk snap st).loopCount = st.loopCount ∧ (walk snap st).polls = st.polls ∧
      st.outOfSyncCount ≤ (walk snap st).outOfSyncCount ∧
      st.unknownCount ≤ (walk snap st).unknownCount ∧
      st.syncCount ≤ (walk snap st).syncCount ∧
      (walk snap st).syncCount ≤ st.syncCount + 1 := by
  induction snap with
  | nil => intro st; exact ⟨[], by simp [walk]⟩
  | cons p rest ih =>
    intro st
    obtain ⟨d, s⟩ := p
    obtain ⟨f1, f2, f3⟩ := tally_frame st s
    obtain ⟨c1, c2, c3, c4⟩ := tally_counters st s
    by_cases h : gateOpen st s
    · obtain ⟨extra, e1, e2, e3, e4, e5, e6, e7, e8⟩ := ih ((st.tally s).send (resourceMsg d s))
      obtain ⟨g1, g2, g3, g4, g5, g6⟩ := send_frame (st.tally s) (resourceMsg d s)
      have hs : (st.tally s).syncCount = st.syncCount := by
        apply tally_syncCount_of_ne
        rintro rfl
        exact not_gateOpen_synced st h
      rw [walk_cons_open d s rest st h]
      refine ⟨resourceMsg d s :: extra, ?_, ?_, ?_, ?_, ?_, ?_, ?_, ?_⟩
      · rw [e1, g6, f3]; simp
      · intro m hm
        rcases List.mem_cons.1 hm with rfl | hm
        · exact resourceMsg_plain server app d s
        · exact e2 m hm
      · rw [e3, g1, f1]
      · rw [e4, g2, f2]
      · rw [g3] at e5; omega
      · rw [g4] at e6; omega
      · rw [g5] at e7; omega
      · rw [g5] at e8; omega
    · rw [walk_cons_closed d s rest st h]
      exact ⟨[], by rw [f3]; simp, by simp, f1, f2, c1, c2, c3, c4⟩

/-- One pass of the loop body: one more poll, `loopCount` one higher, the counters not
lower, `syncCount` at most one higher, and only plain messages added. -/
theorem iteration_inv (server app : String) (poll : Nat → Except String Snapshot)
    (st : LoopState) :
    ∃ extra : List String,
      (iteration poll st).sent = st.sent ++ extra ∧ (∀ m ∈ extra, Plain server app m) ∧
      (iteration poll st).loopCount = st.loopCount + 1 ∧
      (iteration poll st).polls = st.polls + 1 ∧
      st.outOfSyncCount ≤ (iteration poll st).outOfSyncCount ∧
      st.unknownCount ≤ (iteration poll st).unknownCount ∧
      st.syncCount ≤ (iteration poll st).syncCount ∧
      (iteration poll st).syncCount ≤ st.syncCount + 1 := by
  unfold iteration
  cases hp : poll st.polls with
  | error e =>
    refine ⟨[statusErrorMsg e], ?_⟩
    simp [getDeploymentStatus, LoopState.send]
    exact statusErrorMsg_plain server app e
  | ok snap =>
    obtain ⟨extra, e1, e2, e3, e4, e5, e6, e7, e8⟩ := walk_inv server app snap
      ⟨st.loopCount, st.outOfSyncCount, st.unknownCount, st.syncCount, st.polls + 1, st.sent⟩
    refine ⟨extra, ?_⟩
    simp only [getDeploymentStatus]
    exact ⟨e1, e2, by simpa using e3, e4, e5, e6, e7, e8⟩

/-! ### The states at the top of the loop body -/

theorem iterStart_succ_some {poll : Nat → Except String Snapshot} {k : Nat}
    {st1 : LoopState} (h : iterStart poll (k + 1) = some st1) :
    ∃ st, iterStart poll k = some st ∧ st.loopCount < 6 ∧
      (iteration poll st).syncCount ≠ 2 ∧ st1 = iteration poll st := by
  rw [iterStart] at h
  cases hk : iterStart poll k with
  | none => rw [hk] at h; simp at h
  | some st =>
    rw [hk] at h
    by_cases h6 : st.loopCount ≥ 6
    · simp [h6] at h
    · by_cases h2 : (iteration poll st).syncCount = 2
      · simp [h6, h2] at h
      · simp [h6, h2] at h
        exact ⟨st, rfl, by omega, h2, h.symm⟩

theorem iterStart_succ_of {poll : Nat → Except String Snapshot} {k : Nat} {st : LoopState}
    (h : iterStart poll k = some st) (h6 : st.loopCount < 6)
    (h2 : (iteration poll st).syncCount ≠ 2) :
    iterStart poll (k + 1) = some (iteration poll st) := by
  rw [iterStart, h]
  simp [h2, Nat.not_le.2 h6]

/-- At the top of the loop body, for the `k+1`-th time: `k` passes and `k` polls are done,
`k` is within the budget, `syncCount` is below 2 and below `k`, and neither leaving message
has been sent. -/
theorem iterStart_inv (server app : String) (poll : Nat → Except String Snapshot) :
    ∀ (k : Nat) (st : LoopState), iterStart poll k = some st →
      st.loopCount = k ∧ st.polls = k ∧ k ≤ 6 ∧ st.syncCount ≤ 1 ∧ st.syncCount ≤ k ∧
        ∀ m ∈ st.sent, Plain server app m := by
  intro k
  induction k with
  | zero =>
    intro st h
    simp only [iterStart, Option.some.injEq] at h
    subst h
    simp [initState]
  | succ k ih =>
    intro st1 h
    obtain ⟨st, hk, h6, h2, rfl⟩ := iterStart_succ_some h
    obtain ⟨i1, i2, _, i4, i5, i6⟩ := ih st hk
    obtain ⟨extra, e1, e2, e3, e4, _, _, _, e8⟩ := iteration_inv server app poll st
    refine ⟨by omega, by omega, by omega, by omega, by omega, ?_⟩
    intro m hm
    rw [e1] at hm
    rcases List.mem_append.1 hm with hm | hm
    · exact i6 m hm
    · exact e2 m hm

/-! ### The loop leaves, and how -/

theorem statusLoop_outcome (server app : String) (poll : Nat → Except String Snapshot) :
    ∀ (n : Nat) (st : LoopState), 6 - st.loopCount = n →
      iterStart poll st.loopCount = some st →
      ∃ final, (∀ fuel, n < fuel → statusLoop server app poll fuel st = some final) ∧
        Outcome server app poll final := by
  have giveUp : ∀ st : LoopState, 6 ≤ st.loopCount → iterStart poll st.loopCount = some st →
      ∃ final, (∀ fuel, 0 < fuel → statusLoop server app poll fuel st = some final) ∧
        Outcome server app poll final := by
    intro st h6 hst
    have hk := (iterStart_inv server app poll _ st hst).2.2.1
    have h66 : st.loopCount = 6 := by omega
    refine ⟨st.send (giveUpMsg server app), ?_, Or.inl ⟨st, by rw [← h66]; exact hst, rfl⟩⟩
    intro fuel hf
    obtain ⟨f, rfl⟩ := Nat.exists_eq_succ_of_ne_zero (by omega : fuel ≠ 0)
    simp [statusLoop, h6]
  intro n
  induction n with
  | zero =>
    intro st hn hst
    exact giveUp st (by omega) hst
  | succ n ih =>
    intro st hn hst
    have h6 : st.loopCount < 6 := by omega
    by_cases h2 : (iteration poll st).syncCount = 2
    · refine ⟨(iteration poll st).send (syncedMsg app), ?_,
        Or.inr ⟨st.loopCount, st, h6, hst, h2, rfl⟩⟩
      intro fuel hf
      obtain ⟨f, rfl⟩ := Nat.exists_eq_succ_of_ne_zero (by omega : fuel ≠ 0)
      simp [statusLoop, Nat.not_le.2 h6, h2]
    · have hnext := iterStart_succ_of hst h6 h2
      have hl : (iteration poll st).loopCount = st.loopCount + 1 :=
        (iteration_inv server app poll st).choose_spec.2.2.1
      rw [← hl] at hnext
      obtain ⟨final, hfinal, hout⟩ := ih (iteration poll st) (by omega) hnext
      refine ⟨final, ?_, hout⟩
      intro fuel hf
      obtain ⟨f, rfl⟩ := Nat.exists_eq_succ_of_ne_zero (by omega : fuel ≠ 0)
      have := hfinal f (by omega)
      simp [statusLoop, Nat.not_le.2 h6, h2, this]

/-- The function `DoStatusLoop` returns, with the same final state for every fuel from 7
on, and it leaves in one of the two ways of `Outcome`. -/
theorem DoStatusLoop_outcome (server app : String) (poll : Nat → Except String Snapshot) :
    ∃ final, (∀ fuel, 7 ≤ fuel → DoStatusLoop server app poll fuel = some final) ∧
      Outcome server app poll final := by
  obtain ⟨final, h1, h2⟩ := statusLoop_outcome server app poll 6 initState rfl rfl
  exact ⟨final, fun fuel hf => h1 fuel (by omega), h2⟩

/-- What the two ways of leaving mean for the final state. -/
theorem Outcome_facts {server app : String} {poll : Nat → Except String Snapshot}
    {final : LoopState} (h : Outcome server app poll final) :
    final.polls = final.loopCount ∧ final.polls ≤ 6 ∧
    ∃ pre : List String, (∀ m ∈ pre, Plain server app m) ∧
      ((final.sent = pre ++ [giveUpMsg server app] ∧ final.polls = 6 ∧ final.syncCount ≤ 1) ∨
       (final.sent = pre ++ [syncedMsg app] ∧ final.syncCount = 2 ∧ 2 ≤ final.polls)) := by
  rcases h with ⟨st, hst, rfl⟩ | ⟨k, st, hk, hst, h2, rfl⟩
  · obtain ⟨i1, i2, _, i4, _, i6⟩ := iterStart_inv server app poll 6 st hst
    obtain ⟨g1, g2, _, _, g5, g6⟩ := send_frame st (giveUpMsg server app)
    exact ⟨by omega, by omega, st.sent, i6, Or.inl ⟨g6, by omega, by omega⟩⟩
  · obtain ⟨i1, i2, _, i4, i5, i6⟩ := iterStart_inv server app poll k st hst
    obtain ⟨extra, e1, e2, e3, e4, _, _, _, e8⟩ := iteration_inv server app poll st
    obtain ⟨g1, g2, _, _, g5, g6⟩ := send_frame (iteration poll st) (syncedMsg app)
    refine ⟨by omega, by omega, st.sent ++ extra, ?_, Or.inr ⟨by rw [g6, e1], by omega, by omega⟩⟩
    intro m hm
    rcases List.mem_append.1 hm with hm | hm
    · exact i6 m hm
    · exact e2 m hm

/-- The run from the initial state passes through every state `iterStart` names: with
`k` units of fuel spent on the first `k` passes, the loop goes on from that state. -/
theorem DoStatusLoop_from_iterStart (server app : String)
    (poll : Nat → Except String Snapshot) :
    ∀ (k : Nat) (st : LoopState), iterStart poll k = some st →
      ∀ fuel, DoStatusLoop server app poll (fuel + k) = statusLoop server app poll fuel st := by
  intro k
  induction k with
  | zero =>
    intro st h fuel
    simp only [iterStart, Option.some.injEq] at h
    subst h
    rfl
  | succ k ih =>
    intro st1 h fuel
    obtain ⟨st, hk, h6, h2, rfl⟩ := iterStart_succ_some h
    have e : fuel + (k + 1) = (fuel + 1) + k := by omega
    rw [e, ih st hk (fuel + 1)]
    simp [statusLoop, Nat.not_le.2 h6, h2]

/-! ### The claims on `DoStatusLoop` -/

theorem succeedsAt_of_outcome {poll : Nat → Except String Snapshot} {k : Nat} {st : LoopState}
    (hk : k < 6) (hst : iterStart poll k = some st) (h2 : (iteration poll st).syncCount = 2) :
    succeedsAt poll (k + 1) = true := by
  have hl := (iterStart_inv "" "" poll k st hst).1
  simp [succeedsAt, hst, h2, hl, hk]

/-- C2 (budget law).  For every sequence of poll outcomes `DoStatusLoop` returns, with the
same final state for every fuel from 7 on, after at most 6 status polls.  If no pass ended
in Success, equivalently if the Synced message is not in the transcript, exactly 6 polls
were issued and the potential-sync-error message is in the transcript exactly once, as its
last message.  No transcript holds both the Synced and the potential-sync-error message. -/
theorem budget_law (server app : String) (poll : Nat → Except String Snapshot) :
    ∃ final, (∀ fuel, 7 ≤ fuel → DoStatusLoop server app poll fuel = some final) ∧
      final.polls ≤ 6 ∧
      ((∀ k, succeedsAt poll k = false) → syncedMsg app ∉ final.sent) ∧
      (syncedMsg app ∉ final.sent →
        final.polls = 6 ∧ final.sent.getLast? = some (giveUpMsg server app) ∧
          final.sent.count (giveUpMsg server app) = 1) ∧
      ¬ (syncedMsg app ∈ final.sent ∧ giveUpMsg server app ∈ final.sent) := by
  obtain ⟨final, hrun, hout⟩ := DoStatusLoop_outcome server app poll
  obtain ⟨_, h6, pre, hpre, hcase⟩ := Outcome_facts hout
  have hg : giveUpMsg server app ∉ pre := fun h => (hpre _ h).1 rfl
  have hs : syncedMsg app ∉ pre := fun h => (hpre _ h).2 rfl
  refine ⟨final, hrun, h6, ?_, ?_, ?_⟩
  · intro hnone
    rcases hout with ⟨st, _, rfl⟩ | ⟨k, st, hk, hst, h2, _⟩
    · rcases hcase with ⟨e, _, _⟩ | ⟨_, e2, _⟩
      · rw [e]
        simp [hs, (giveUpMsg_ne_syncedMsg server app).symm]
      · have := (iterStart_inv server app poll 6 st (by assumption)).2.2.2.1
        simp [LoopState.send] at e2
        omega
    · have := succeedsAt_of_outcome hk hst h2
      rw [hnone] at this
      exact absurd this (by decide)
  · intro hno
    rcases hcase with ⟨e, e6, _⟩ | ⟨e, _, _⟩
    · refine ⟨e6, by rw [e]; simp, ?_⟩
      rw [e, List.count_append, List.count_eq_zero_of_not_mem hg]
      simp
    · exact absurd (by rw [e]; simp) hno
  · rintro ⟨h1, h2⟩
    rcases hcase with ⟨e, _, _⟩ | ⟨e, _, _⟩
    · rw [e] at h1
      simp [hs, (giveUpMsg_ne_syncedMsg server app).symm] at h1
    · rw [e] at h2
      simp [hg, giveUpMsg_ne_syncedMsg server app] at h2

/-- C5 (poll transport errors).  When the loop is at the top of its body for the `k+1`-th
time, `k < 6`, and the poll fails with error `e`, the loop arrives at the top of its body
once more with exactly one message added (the error message), the three counters
unchanged, and `loopCount` and the number of polls one higher; the run goes on from that
state, one unit of its budget spent.  When every poll fails,
`DoStatusLoop` returns after 6 polls and its transcript is the 6 error messages followed
by the potential-sync-error message. -/
theorem poll_error_continues (server app : String) (poll : Nat → Except String Snapshot)
    (k : Nat) (st : LoopState) (e : String)
    (hst : iterStart poll k = some st) (hk : k < 6) (he : poll k = .error e) :
    iterStart poll (k + 1) = some ⟨st.loopCount + 1, st.outOfSyncCount, st.unknownCount,
        st.syncCount, st.polls + 1, st.sent ++ [statusErrorMsg e]⟩ ∧
      (∀ fuel, DoStatusLoop server app poll (fuel + (k + 1)) =
        statusLoop server app poll fuel ⟨st.loopCount + 1, st.outOfSyncCount, st.unknownCount,
          st.syncCount, st.polls + 1, st.sent ++ [statusErrorMsg e]⟩) ∧
      ∀ errs : Nat → String, (∀ j, poll j = .error (errs j)) →
        ∀ fuel, 7 ≤ fuel → DoStatusLoop server app poll fuel =
          some ⟨6, 0, 0, 0, 6,
            (List.range 6).map (fun j => statusErrorMsg (errs j)) ++ [giveUpMsg server app]⟩ := by
  obtain ⟨i1, i2, _, i4, _, _⟩ := iterStart_inv server app poll k st hst
  have hit : iteration poll st = ⟨st.loopCount + 1, st.outOfSyncCount, st.unknownCount,
      st.syncCount, st.polls + 1, st.sent ++ [statusErrorMsg e]⟩ := by
    simp [iteration, i2, he, getDeploymentStatus, LoopState.send]
  have h2 : (iteration poll st).syncCount ≠ 2 := by rw [hit]; simp; omega
  have hnext := iterStart_succ_of hst (by omega) h2
  rw [hit] at hnext
  refine ⟨hnext, DoStatusLoop_from_iterStart server app poll (k + 1) _ hnext, ?_⟩
  · intro errs hall fuel hfuel
    obtain ⟨f, rfl⟩ : ∃ f, fuel = f + 7 := ⟨fuel - 7, by omega⟩
    simp [DoStatusLoop, statusLoop, iteration, initState, hall, getDeploymentStatus,
      LoopState.send, List.range, List.range.loop]

/-- A run in which every poll times out: the first failed poll leaves the counters alone
and the run ends with six error messages and the give-up message. -/
theorem poll_error_continues_witness :
    iterStart alwaysTimeout 1 = some ⟨1, 0, 0, 0, 1, [statusErrorMsg "timeout"]⟩ ∧
      (∀ fuel, DoStatusLoop "https://argocd.example" "checkout" alwaysTimeout (fuel + 1) =
        statusLoop "https://argocd.example" "checkout" alwaysTimeout fuel
          ⟨1, 0, 0, 0, 1, [statusErrorMsg "timeout"]⟩) ∧
      DoStatusLoop "https://argocd.example" "checkout" alwaysTimeout 7 =
        some ⟨6, 0, 0, 0, 6,
          (List.range 6).map (fun _ => statusErrorMsg "timeout") ++
            [giveUpMsg "https://argocd.example" "checkout"]⟩ :=
  have h := poll_error_continues "https://argocd.example" "checkout" alwaysTimeout 0 initState
    "timeout" rfl (by decide) rfl
  ⟨h.1, h.2.1, h.2.2 (fun _ => "timeout") (fun _ => rfl) 7 (by decide)⟩

theorem iterStart_mono (poll : Nat → Except String Snapshot) (j : Nat) (stj : LoopState)
    (hj : iterStart poll j = some stj) :
    ∀ (n : Nat) (stk : LoopState), iterStart poll (j + n) = some stk →
      stj.outOfSyncCount ≤ stk.outOfSyncCount ∧ stj.unknownCount ≤ stk.unknownCount ∧
        stj.syncCount ≤ stk.syncCount := by
  intro n
  induction n with
  | zero =>
    intro stk hk
    rw [Nat.add_zero, hj] at hk
    cases hk
    exact ⟨le_refl _, le_refl _, le_refl _⟩
  | succ n ih =>
    intro stk hk
    obtain ⟨st, hst, _, _, rfl⟩ := @iterStart_succ_some poll (j + n) stk hk
    obtain ⟨a1, a2, a3⟩ := ih st hst
    obtain ⟨_, _, _, _, _, e5, e6, e7, _⟩ := iteration_inv "" "" poll st
    exact ⟨by omega, by omega, by omega⟩

/-- C10 (counter invariant).  A pass of the loop body never lowers `outOfSyncCount`,
`unknownCount` or `syncCount` and raises `syncCount` by at most 1, so the counters at a
later arrival at the top of the body are not below those at an earlier one.  The run
returns; the Synced message is in its transcript exactly when the final `syncCount` is 2,
and then it is the last message, sent at the end of the pass that took `syncCount` from 1
to 2, which is the second pass or a later one. -/
theorem counters_invariant (server app : String) (poll : Nat → Except String Snapshot) :
    (∀ st : LoopState,
      st.outOfSyncCount ≤ (iteration poll st).outOfSyncCount ∧
      st.unknownCount ≤ (iteration poll st).unknownCount ∧
      st.syncCount ≤ (iteration poll st).syncCount ∧
      (iteration poll st).syncCount ≤ st.syncCount + 1) ∧
    (∀ (j k : Nat) (stj stk : LoopState), j ≤ k → iterStart poll j = some stj →
      iterStart poll k = some stk →
      stj.outOfSyncCount ≤ stk.outOfSyncCount ∧ stj.unknownCount ≤ stk.unknownCount ∧
        stj.syncCount ≤ stk.syncCount) ∧
    succeedsAt poll 1 = false ∧
    ∃ final, (∀ fuel, 7 ≤ fuel → DoStatusLoop server app poll fuel = some final) ∧
      (syncedMsg app ∈ final.sent ↔ final.syncCount = 2) ∧
      (final.syncCount = 2 →
        2 ≤ final.polls ∧ final.sent.getLast? = some (syncedMsg app) ∧
        succeedsAt poll final.polls = true ∧
        ∃ st, iterStart poll (final.polls - 1) = some st ∧ st.syncCount = 1 ∧
          final = (iteration poll st).send (syncedMsg app)) := by
  refine ⟨?_, ?_, ?_, ?_⟩
  · intro st
    obtain ⟨_, _, _, _, _, e5, e6, e7, e8⟩ := iteration_inv server app poll st
    exact ⟨e5, e6, e7, e8⟩
  · intro j k stj stk hjk hj hk
    obtain ⟨n, rfl⟩ := Nat.exists_eq_add_of_le hjk
    exact iterStart_mono poll j stj hj n stk hk
  · have h := (iteration_inv server app poll initState).choose_spec.2.2.2.2.2.2.2
    have h0 : initState.syncCount = 0 := rfl
    have : (iteration poll initState).syncCount ≠ 2 := by omega
    simp [succeedsAt, iterStart, this]
  · obtain ⟨final, hrun, hout⟩ := DoStatusLoop_outcome server app poll
    obtain ⟨_, _, pre, hpre, hcase⟩ := Outcome_facts hout
    have hs : syncedMsg app ∉ pre := fun h => (hpre _ h).2 rfl
    refine ⟨final, hrun, ?_, ?_⟩
    · rcases hcase with ⟨e, _, e1⟩ | ⟨e, e2, _⟩
      · rw [e]
        simp [hs, (giveUpMsg_ne_syncedMsg server app).symm]
        omega
      · rw [e]
        simp [e2]
    · intro h2
      rcases hout with ⟨st, hst, rfl⟩ | ⟨k, st, hk, hst, hsync, rfl⟩
      · have := (iterStart_inv server app poll 6 st hst).2.2.2.1
        simp [LoopState.send] at h2
        omega
      · obtain ⟨i1, i2, _, i4, i5, _⟩ := iterStart_inv server app poll k st hst
        obtain ⟨_, _, _, _, e4, _, _, _, e8⟩ := iteration_inv server app poll st
        have hp : ((iteration poll st).send (syncedMsg app)).polls = k + 1 := by
          simp [LoopState.send, e4, i2]
        rw [hp]
        refine ⟨by omega, by simp [LoopState.send], succeedsAt_of_outcome hk hst hsync,
          st, by simpa using hst, by omega, rfl⟩

/-- C4 as stated fails: five polls that each report the one deployment `web` as
`OutOfSync` produce one `OutOfSync` narration, not `min 5 2 = 2`, and the whole run of six
such polls produces one as well. -/
theorem five_outOfSync_polls_one_narration :
    ∃ st, iterStart alwaysOutOfSync 5 = some st ∧
      st.sent.count (resourceMsg "web" "OutOfSync") = 1 ∧
      st.sent.count (resourceMsg "web" "OutOfSync") ≠ min 5 2 ∧
      DoStatusLoop "https://argocd.example" "checkout" alwaysOutOfSync 7 =
        some ⟨6, 6, 0, 0, 6, [resourceMsg "web" "OutOfSync",
          giveUpMsg "https://argocd.example" "checkout"]⟩ :=
  ⟨⟨5, 5, 0, 0, 5, [resourceMsg "web" "OutOfSync"]⟩, by decide, by decide, by decide,
    by decide⟩

theorem iterStart_outOfSync (name : String) (poll : Nat → Except String Snapshot) :
    ∀ N : Nat, N + 1 ≤ 6 → (∀ i, i < N + 1 → poll i = .ok [(name, "OutOfSync")]) →
      iterStart poll (N + 1) =
        some ⟨N + 1, N + 1, 0, 0, N + 1, [resourceMsg name "OutOfSync"]⟩ := by
  intro N
  induction N with
  | zero =>
    intro _ h
    simp [iterStart, iteration, initState, h 0 (by omega), getDeploymentStatus, walk,
      LoopState.tally, LoopState.send]
  | succ N ih =>
    intro h6 h
    have hprev := ih (by omega) (fun i hi => h i (by omega))
    rw [iterStart, hprev]
    have hN : ¬ (6 ≤ N + 1) := by omega
    have hgate : ¬ (N + 1 + 1 < 2) := by omega
    simp [iteration, h (N + 1) (by omega), getDeploymentStatus, walk, LoopState.tally,
      LoopState.send, hN, hgate]

/-- C4 as amended (saturation).  For every `N` with `1 ≤ N ≤ 6`, when each of the first
`N` polls returns the same single resource in state `OutOfSync`, the transcript after
those `N` passes holds the `OutOfSync` narration of that resource exactly once: the first
occurrence is narrated and every later one is suppressed. -/
theorem saturation_law (server app name : String) (poll : Nat → Except String Snapshot)
    (N : Nat) (h1 : 1 ≤ N) (h6 : N ≤ 6)
    (hpoll : ∀ i, i < N → poll i = .ok [(name, "OutOfSync")]) :
    ∃ st, iterStart poll N = some st ∧
      (∀ fuel, DoStatusLoop server app poll (fuel + N) = statusLoop server app poll fuel st) ∧
      st.outOfSyncCount = N ∧ st.sent = [resourceMsg name "OutOfSync"] ∧
      st.sent.count (resourceMsg name "OutOfSync") = 1 := by
  obtain ⟨n, rfl⟩ : ∃ n, N = n + 1 := ⟨N - 1, by omega⟩
  have h := iterStart_outOfSync name poll n h6 hpoll
  exact ⟨_, h, DoStatusLoop_from_iterStart server app poll (n + 1) _ h, rfl, rfl, by simp⟩

/-- Five `OutOfSync` polls of `web`: one narration. -/
theorem saturation_law_witness :
    ∃ st, iterStart alwaysOutOfSync 5 = some st ∧
      (∀ fuel, DoStatusLoop "https://argocd.example" "checkout" alwaysOutOfSync (fuel + 5) =
        statusLoop "https://argocd.example" "checkout" alwaysOutOfSync fuel st) ∧
      st.outOfSyncCount = 5 ∧ st.sent = [resourceMsg "web" "OutOfSync"] ∧
      st.sent.count (resourceMsg "web" "OutOfSync") = 1 :=
  saturation_law "https://argocd.example" "checkout" "web" alwaysOutOfSync 5 (by decide)
    (by decide) (fun _ _ => rfl)

/-- C9 as stated fails: in the walk of `a: OutOfSync`, `b: OutOfSync`, `c: Unknown` from the
initial state, `b` is the second `OutOfSync` occurrence of the run, for which the gate of
the specification is open, and no resource is `Synced`.  The walk stops at `b` all the
same: `b` is counted and not narrated, and `c`, which is narrated when walked alone, is
neither counted nor narrated. -/
theorem second_outOfSync_stops_walk :
    specGateOpen (processAll [("a", "OutOfSync")] initState) "OutOfSync" ∧
      walk [("a", "OutOfSync"), ("b", "OutOfSync"), ("c", "Unknown")] initState =
        ⟨0, 2, 0, 0, 0, [resourceMsg "a" "OutOfSync"]⟩ ∧
      (walk [("c", "Unknown")] initState).sent = [resourceMsg "c" "Unknown"] :=
  ⟨by simp [specGateOpen, processAll, LoopState.tally, LoopState.send, initState],
    by decide, by decide⟩

/-- The walk also stops at a `Synced` resource: after `a` in state `Synced` the resource
`b`, in state `OutOfSync` and narrated when walked alone, is neither counted nor
narrated. -/
theorem synced_resource_stops_walk :
    (walk [("b", "OutOfSync")] initState).sent = [resourceMsg "b" "OutOfSync"] ∧
      (walk [("a", "Synced"), ("b", "OutOfSync")] initState).outOfSyncCount = 0 ∧
      (walk [("a", "Synced"), ("b", "OutOfSync")] initState).sent = [] ∧
      walk [("a", "Synced"), ("b", "OutOfSync")] initState = walk [("a", "Synced")] initState := by
  decide

theorem processAll_sent (pre : Snapshot) :
    ∀ st : LoopState,
      (processAll pre st).sent = st.sent ++ pre.map (fun p => resourceMsg p.1 p.2) := by
  induction pre with
  | nil => intro st; simp [processAll]
  | cons p rest ih =>
    intro st
    obtain ⟨d, s⟩ := p
    rw [processAll, ih, (send_frame _ _).2.2.2.2.2, (tally_frame st s).2.2]
    simp

theorem walk_allPass (snap : Snapshot) :
    ∀ st : LoopState, allPass snap st → walk snap st = processAll snap st := by
  induction snap with
  | nil => intro st _; simp [walk, processAll]
  | cons p rest ih =>
    intro st h
    obtain ⟨d, s⟩ := p
    rw [walk_cons_open d s rest st h.1, processAll, ih _ h.2]

theorem walk_stop (pre : Snapshot) (d s : String) (post : Snapshot) :
    ∀ st : LoopState, allPass pre st → ¬ gateOpen (processAll pre st) s →
      walk (pre ++ (d, s) :: post) st = (processAll pre st).tally s := by
  induction pre with
  | nil =>
    intro st _ hstop
    exact walk_cons_closed d s post st hstop
  | cons p rest ih =>
    intro st h hstop
    obtain ⟨d1, s1⟩ := p
    rw [List.cons_append, walk_cons_open d1 s1 _ st h.1]
    exact ih _ h.2 hstop

theorem processAll_syncCount (pre : Snapshot) :
    ∀ st : LoopState, allPass pre st → (processAll pre st).syncCount = st.syncCount := by
  induction pre with
  | nil => intro st _; rfl
  | cons p rest ih =>
    intro st h
    obtain ⟨d, s⟩ := p
    have hs : s ≠ "Synced" := by
      rintro rfl
      exact not_gateOpen_synced st h.1
    rw [processAll, ih _ h.2, (send_frame _ _).2.2.2.2.1, tally_syncCount_of_ne st s hs]

/-- C9 as amended (walk-order short-circuit).  Within one pass, as long as no `Synced`
resource has been met, the walk stops at exactly the first resource whose state is none of
`OutOfSync` with the `OutOfSync` gate open, `Unknown` with the `Unknown` gate open, and
`Synced`, a gate being open while its counter, read after the current resource has been
counted, is below 2.  Every resource before that one is counted and narrated; the stopping
resource is counted and not narrated; no resource after it is narrated or counted, and
`syncCount` is as before the walk.  A snapshot all of whose resources find their gate open
is walked to its end. -/
theorem walk_short_circuit (pre : Snapshot) (d s : String) (post : Snapshot) (st : LoopState)
    (hpre : allPass pre st) (hs : s ≠ "Synced") (hstop : ¬ gateOpen (processAll pre st) s) :
    walk (pre ++ (d, s) :: post) st = (processAll pre st).tally s ∧
      (walk (pre ++ (d, s) :: post) st).sent =
        st.sent ++ pre.map (fun p => resourceMsg p.1 p.2) ∧
      (walk (pre ++ (d, s) :: post) st).syncCount = st.syncCount ∧
      walk pre st = processAll pre st := by
  have h := walk_stop pre d s post st hpre hstop
  refine ⟨h, ?_, ?_, walk_allPass pre st hpre⟩
  · rw [h, (tally_frame _ s).2.2, processAll_sent]
  · rw [h, tally_syncCount_of_ne _ s hs, processAll_syncCount pre st hpre]

/-- A walk of `a: OutOfSync`, `b: OutOfSync`, `c: Unknown` from the initial state: `a` is
counted and narrated, `b` finds the gate closed and stops the walk, `c` is not reached. -/
theorem walk_short_circuit_witness :
    walk ([("a", "OutOfSync")] ++ ("b", "OutOfSync") :: [("c", "Unknown")]) initState =
        (processAll [("a", "OutOfSync")] initState).tally "OutOfSync" ∧
      (walk ([("a", "OutOfSync")] ++ ("b", "OutOfSync") :: [("c", "Unknown")])
          initState).sent =
        initState.sent ++ [("a", "OutOfSync")].map (fun p => resourceMsg p.1 p.2) ∧
      (walk ([("a", "OutOfSync")] ++ ("b", "OutOfSync") :: [("c", "Unknown")])
          initState).syncCount = initState.syncCount ∧
      walk [("a", "OutOfSync")] initState = processAll [("a", "OutOfSync")] initState :=
  walk_short_circuit [("a", "OutOfSync")] "b" "OutOfSync" [("c", "Unknown")] initState
    (by simp [allPass, gateOpen, LoopState.tally, initState]) (by decide)
    (by simp [gateOpen, processAll, LoopState.tally, LoopState.send, initState])

/-- C1 at a failing input.  The first poll returns two `Synced` deployments and the pass
does not end in Success; the second poll returns one `Synced` deployment and the pass ends
in Success.  The run sends the Synced message after two polls, with `syncCount` counted
across the two snapshots. -/
theorem consensus_failing_input :
    twoThenOne 0 = .ok [("web", "Synced"), ("worker", "Synced")] ∧
      syncedIn [("web", "Synced"), ("worker", "Synced")] = 2 ∧
      succeedsAt twoThenOne 1 = false ∧
      twoThenOne 1 = .ok [("web", "Synced")] ∧
      syncedIn [("web", "Synced")] = 1 ∧
      succeedsAt twoThenOne 2 = true ∧
      DoStatusLoop "https://argocd.example" "checkout" twoThenOne 7 =
        some ⟨2, 0, 0, 2, 2, [syncedMsg "checkout"]⟩ :=
  ⟨rfl, by decide, by decide, rfl, by decide, by decide, by decide⟩

end Argo

namespace Main

/-! ### The pipeline of `run` -/

theorem narrations_append (a b : List Event) :
    narrations (a ++ b) = narrations a ++ narrations b := by
  induction a with
  | nil => simp [narrations]
  | cons e rest ih => cases e <;> simp [narrations, ih]

theorem pollCount_append (a b : List Event) :
    pollCount (a ++ b) = pollCount a + pollCount b := by
  induction a with
  | nil => simp [pollCount]
  | cons e rest ih =>
    cases e with
    | send m => simp [pollCount, ih]
    | call c =>
      cases c <;> simp [pollCount, ih]
      omega

/-- With valid arguments and a resolved reference, `run` announces the fetch and goes on
with the image check. -/
theorem run_resolved (env : Env) (text : String) (fuel : Nat)
    (hv : validOK env text) (hl : lookupOK env text) :
    run env text fuel =
      runAfterFetch env (appOf env text) (lookupOf env text).1 fuel
        [Event.call Collab.githubClient, Event.call Collab.CheckArgsValid,
          Event.call Collab.GetPullRequest, Event.send (fetchMsg env text)] := by
  simp only [validOK] at hv
  by_cases h200 : (lookupOf env text).2.1 = 200
  · have h200b := h200
    simp only [lookupOf, refOf, appOf] at h200b
    simp [run, hv, h200b, fetchMsg, h200, lookupOf, refOf, appOf]
  · have hne : ¬ ((lookupOf env text).2.1 = 404 ∧ refOf env text ≠ "main") := by
      rcases hl with hl | hl
      · exact absurd hl h200
      · exact hl
    have h200b := h200
    have hneb := hne
    simp only [lookupOf, refOf, appOf] at h200b hneb
    simp only [run, hv, h200b, fetchMsg, h200, lookupOf, refOf, appOf, if_false, if_neg hneb]
    simp

/-- C6 (fail-fast pipeline).  When a stage of `run` is reached and fails, `run` returns,
whatever the fuel; the last narration is that stage's error message; every collaborator
called belongs to that stage or an earlier one; no status poll is issued. -/
theorem fail_fast (env : Env) (text : String) (fuel : Nat) (s : Stage)
    (h : failsAt env text s) :
    (run env text fuel).returned = true ∧
      (narrations (run env text fuel).trace).getLast? = some (stageError env text s) ∧
      (∀ c, Event.call c ∈ (run env text fuel).trace → c.stage ≤ s.index) ∧
      pollCount (run env text fuel).trace = 0 := by
  cases s with
  | validation =>
    have hv : (env.CheckArgsValid text).1 = false := by
      simpa [failsAt, validOK] using h
    simp [run, hv, stageError, narrations, pollCount, Collab.stage, Stage.index]
  | lookup =>
    obtain ⟨hv, h404, href⟩ := h
    simp only [validOK, lookupOf, refOf, appOf] at hv h404 href
    simp [run, hv, h404, href, stageError, narrations, pollCount, lookupOf, refOf, appOf,
      Collab.stage, Stage.index]
  | image =>
    obtain ⟨hv, hl, hi⟩ := h
    rw [run_resolved env text fuel hv hl]
    have hi2 : (imageOf env text).1 = false := by simpa [imageOK] using hi
    simp only [imageOf] at hi2
    simp [runAfterFetch, hi2, stageError, absentMsg, imgTagOf, imageOf, narrations, pollCount,
      Collab.stage, Stage.index]
  | checks =>
    obtain ⟨hv, hl, hi, hc⟩ := h
    rw [run_resolved env text fuel hv hl]
    have hc2 : env.ConfirmChecksCompleted (appOf env text) (imageOf env text).2.2 = false := by
      simpa [checksOK] using hc
    simp only [imageOK, imageOf] at hi hc2
    simp [runAfterFetch, hi, hc2, stageError, imgTagOf, imageOf, narrations, pollCount,
      Collab.stage, Stage.index]
  | download =>
    obtain ⟨hv, hl, hi, hc, hd⟩ := h
    rw [run_resolved env text fuel hv hl]
    obtain ⟨e, he⟩ : ∃ e, (downloadOf env text).2.2.2 = some e :=
      Option.ne_none_iff_exists'.1 hd
    simp only [imageOK, checksOK, imageOf, downloadOf] at hi hc he
    simp [runAfterFetch, hi, hc, he, stageError, downloadOf, narrations, pollCount,
      Collab.stage, Stage.index]
  | update =>
    obtain ⟨hv, hl, hi, hc, hd, hu⟩ := h
    rw [run_resolved env text fuel hv hl]
    simp only [imageOK, checksOK, downloadOK, updateOK, imageOf, downloadOf, updateOf,
      imgTagOf] at hi hc hd hu
    simp [runAfterFetch, hi, hc, hd, hu, stageError, updateOf, downloadOf, imgTagOf, imageOf,
      narrations, pollCount, Collab.stage, Stage.index]
  | push =>
    obtain ⟨hv, hl, hi, hc, hd, hu, hp⟩ := h
    rw [run_resolved env text fuel hv hl]
    obtain ⟨e, he⟩ : ∃ e, (pushOf env text).2 = some e := Option.ne_none_iff_exists'.1 hp
    simp only [imageOK, checksOK, downloadOK, updateOK, imageOf, downloadOf, updateOf,
      pushOf, imgTagOf] at hi hc hd hu he
    simp [runAfterFetch, hi, hc, hd, hu, he, stageError, pushOf, updateOf, downloadOf,
      imgTagOf, imageOf, narrations, pollCount, Collab.stage, Stage.index]

/-- A request for a pull request that does not exist: `run` stops at the lookup. -/
theorem fail_fast_witness :
    (run missingPREnv "checkout 17" 7).returned = true ∧
      (narrations (run missingPREnv "checkout 17" 7).trace).getLast? =
        some (stageError missingPREnv "checkout 17" Stage.lookup) ∧
      (∀ c, Event.call c ∈ (run missingPREnv "checkout 17" 7).trace →
        c.stage ≤ Stage.lookup.index) ∧
      pollCount (run missingPREnv "checkout 17" 7).trace = 0 :=
  fail_fast missingPREnv "checkout 17" 7 Stage.lookup ⟨rfl, rfl, by decide⟩

/-- C7 as stated fails: for application `checkout`, reference `42` (pull request found) and
the absent image `checkout:abc123`, the transcript of `run` holds two messages, the
announcement of the fetch and then the absent-image message. -/
theorem checkout_absent_two_narrations :
    narrations (run (checkoutEnv false alwaysProgressing) "checkout 42" 7).trace =
        ["_Fetching https://github.com/acme/checkout/pull/42 _",
          "_`checkout:abc123` does not exist in ECR_"] ∧
      narrations (run (checkoutEnv false alwaysProgressing) "checkout 42" 7).trace ≠
        ["_`checkout:abc123` does not exist in ECR_"] := by
  decide

/-- C7 as amended (artifact absent).  For every request that passes validation and whose
reference resolves (the lookup returns 200, or the reference is `main`), if
`ConfirmImageExists` reports the image absent, the transcript of `run` is exactly two
messages, the announcement of the fetch followed by the absent-image message, no status
poll is issued, and `run` returns. -/
theorem image_absent (env : Env) (text : String) (fuel : Nat)
    (hv : validOK env text)
    (hres : (lookupOf env text).2.1 = 200 ∨ refOf env text = "main")
    (habsent : (imageOf env text).1 = false) :
    narrations (run env text fuel).trace = [fetchMsg env text, absentMsg (imgTagOf env text)] ∧
      pollCount (run env text fuel).trace = 0 ∧ (run env text fuel).returned = true := by
  have hl : lookupOK env text := by
    rcases hres with h | h
    · exact Or.inl h
    · exact Or.inr (fun hh => hh.2 h)
  rw [run_resolved env text fuel hv hl]
  simp only [imageOf] at habsent
  simp [runAfterFetch, habsent, absentMsg, imgTagOf, imageOf, narrations, pollCount]

/-- The scenario of the claim: `checkout`, reference `42`, image `checkout:abc123` absent. -/
theorem image_absent_witness :
    narrations (run (checkoutEnv false alwaysProgressing) "checkout 42" 7).trace =
        [fetchMsg (checkoutEnv false alwaysProgressing) "checkout 42",
          absentMsg (imgTagOf (checkoutEnv false alwaysProgressing) "checkout 42")] ∧
      pollCount (run (checkoutEnv false alwaysProgressing) "checkout 42" 7).trace = 0 ∧
      (run (checkoutEnv false alwaysProgressing) "checkout 42" 7).returned = true :=
  image_absent (checkoutEnv false alwaysProgressing) "checkout 42" 7 rfl (Or.inl rfl) rfl

/-! ### The polling loop of `run` -/

theorem walkStatus_spec (snap : Snapshot) :
    ∀ (n : Nat) (tr : List Event),
      (walkStatus snap n tr).1 = n + leadingSynced snap ∧
        pollCount (walkStatus snap n tr).2 = pollCount tr := by
  induction snap with
  | nil => intro n tr; simp [walkStatus, leadingSynced]
  | cons p rest ih =>
    intro n tr
    obtain ⟨d, s⟩ := p
    by_cases hs : s = "Synced"
    · obtain ⟨h1, h2⟩ := ih (n + 1) (tr ++ [Event.send (statusMsg d s)])
      simp only [walkStatus, leadingSynced, hs, if_true] at h1 h2 ⊢
      rw [h1, h2, pollCount_append]
      simp [pollCount]
      omega
    · simp [walkStatus, leadingSynced, hs, pollCount_append, pollCount]

theorem leadingSynced_le (snap : Snapshot) : leadingSynced snap ≤ syncedIn snap := by
  induction snap with
  | nil => simp [leadingSynced, syncedIn]
  | cons p rest ih =>
    obtain ⟨d, s⟩ := p
    by_cases hs : s = "Synced"
    · simp only [syncedIn] at ih ⊢
      simp [leadingSynced, hs]
      exact ih
    · simp [leadingSynced, hs]

/-- One more poll when the status source answers without error and the snapshot does not
start with exactly two `Synced` resources. -/
theorem pollLoop_continue (env : Env) (app : String) (fuel n : Nat) (tr : List Event)
    (hmsg : (env.GetArgoDeploymentStatus n app).2 = "")
    (hlead : leadingSynced (env.GetArgoDeploymentStatus n app).1 ≠ 2) :
    ∃ tr1, pollLoop env app (fuel + 1) n tr = pollLoop env app fuel (n + 1) tr1 ∧
      pollCount tr1 = pollCount tr + 1 := by
  obtain ⟨h1, h2⟩ := walkStatus_spec (env.GetArgoDeploymentStatus n app).1 0
    (tr ++ [Event.call Collab.argoClient, Event.call Collab.GetArgoDeploymentStatus])
  refine ⟨(walkStatus (env.GetArgoDeploymentStatus n app).1 0
    (tr ++ [Event.call Collab.argoClient, Event.call Collab.GetArgoDeploymentStatus])).2, ?_, ?_⟩
  · have hne : (walkStatus (env.GetArgoDeploymentStatus n app).1 0
        (tr ++ [Event.call Collab.argoClient, Event.call Collab.GetArgoDeploymentStatus])).1 ≠ 2 := by
      rw [h1]; omega
    simp [pollLoop, hmsg, hne]
  · rw [h2, pollCount_append]
    simp [pollCount]

/-- The last poll: the snapshot starts with exactly two `Synced` resources. -/
theorem pollLoop_stop (env : Env) (app : String) (fuel n : Nat) (tr : List Event)
    (hmsg : (env.GetArgoDeploymentStatus n app).2 = "")
    (hlead : leadingSynced (env.GetArgoDeploymentStatus n app).1 = 2) :
    (pollLoop env app (fuel + 1) n tr).returned = true ∧
      pollCount (pollLoop env app (fuel + 1) n tr).trace = pollCount tr + 1 := by
  obtain ⟨h1, h2⟩ := walkStatus_spec (env.GetArgoDeploymentStatus n app).1 0
    (tr ++ [Event.call Collab.argoClient, Event.call Collab.GetArgoDeploymentStatus])
  have he : (walkStatus (env.GetArgoDeploymentStatus n app).1 0
      (tr ++ [Event.call Collab.argoClient, Event.call Collab.GetArgoDeploymentStatus])).1 = 2 := by
    rw [h1]; omega
  simp only [pollLoop, hmsg, he, ne_eq, not_true_eq_false, if_false, if_true, true_and]
  rw [h2, pollCount_append]
  simp [pollCount]

/-- A status source that never errs and never shows two leading `Synced` resources keeps
the loop polling for as long as there is fuel. -/
theorem pollLoop_stuck (env : Env) (app : String)
    (h : ∀ n, (env.GetArgoDeploymentStatus n app).2 = "" ∧
      leadingSynced (env.GetArgoDeploymentStatus n app).1 ≠ 2) :
    ∀ (fuel n : Nat) (tr : List Event),
      (pollLoop env app fuel n tr).returned = false ∧
        pollCount (pollLoop env app fuel n tr).trace = pollCount tr + fuel := by
  intro fuel
  induction fuel with
  | zero => intro n tr; simp [pollLoop]
  | succ fuel ih =>
    intro n tr
    obtain ⟨tr1, e1, e2⟩ := pollLoop_continue env app fuel n tr (h n).1 (h n).2
    obtain ⟨i1, i2⟩ := ih (n + 1) tr1
    rw [e1, i1, i2, e2]
    exact ⟨rfl, by omega⟩

/-- The loop stops at the first poll whose snapshot starts with exactly two `Synced`
resources. -/
theorem pollLoop_exact (env : Env) (app : String) :
    ∀ (k n fuel : Nat) (tr : List Event), k < fuel →
      (∀ i, i < k → (env.GetArgoDeploymentStatus (n + i) app).2 = "" ∧
        leadingSynced (env.GetArgoDeploymentStatus (n + i) app).1 ≠ 2) →
      (env.GetArgoDeploymentStatus (n + k) app).2 = "" →
      leadingSynced (env.GetArgoDeploymentStatus (n + k) app).1 = 2 →
      (pollLoop env app fuel n tr).returned = true ∧
        pollCount (pollLoop env app fuel n tr).trace = pollCount tr + (k + 1) := by
  intro k
  induction k with
  | zero =>
    intro n fuel tr hf _ hmsg hlead
    obtain ⟨f, rfl⟩ := Nat.exists_eq_succ_of_ne_zero (by omega : fuel ≠ 0)
    exact pollLoop_stop env app f n tr hmsg hlead
  | succ k ih =>
    intro n fuel tr hf hearly hmsg hlead
    obtain ⟨f, rfl⟩ := Nat.exists_eq_succ_of_ne_zero (by omega : fuel ≠ 0)
    obtain ⟨tr1, e1, e2⟩ := pollLoop_continue env app f n tr (hearly 0 (by omega)).1
      (hearly 0 (by omega)).2
    have hshift : ∀ i, n + 1 + i = n + (i + 1) := fun i => by omega
    obtain ⟨i1, i2⟩ := ih (n + 1) f tr1 (by omega)
      (fun i hi => by rw [hshift]; exact hearly (i + 1) (by omega))
      (by rw [hshift]; exact hmsg) (by rw [hshift]; exact hlead)
    rw [e1, i1, i2, e2]
    exact ⟨rfl, by omega⟩

/-- When every stage passes, `run` enters its polling loop with the trace of the
pipeline. -/
theorem run_of_passes (env : Env) (text : String) (fuel : Nat)
    (h : pipelinePasses env text) :
    run env text fuel = pollLoop env (appOf env text) fuel 0 (pipelineTrace env text) := by
  obtain ⟨hv, hl, hi, hc, hd, hu, hp⟩ := h
  rw [run_resolved env text fuel hv hl]
  simp only [imageOK, checksOK, downloadOK, updateOK, pushOK, imageOf, downloadOf, updateOf,
    pushOf, imgTagOf] at hi hc hd hu hp
  simp [runAfterFetch, hi, hc, hd, hu, hp, pipelineTrace, pushOf, updateOf, downloadOf,
    imgTagOf, imageOf]

theorem pollCount_pipelineTrace (env : Env) (text : String) :
    pollCount (pipelineTrace env text) = 0 := by
  simp [pipelineTrace, pollCount]

/-! ### The claims on the polling loop of `run` -/

theorem checkoutEnv_passes (polls : Nat → Snapshot × String) :
    pipelinePasses (checkoutEnv true polls) "checkout 42" :=
  ⟨rfl, Or.inl rfl, rfl, rfl, rfl, rfl, rfl⟩

/-- C3 at a failing input.  With a status source that reports `web` as `Progressing` on
every poll, without error, the polling loop of `run` has no budget: whatever the fuel,
`run` has not returned when it is used up and has issued as many polls as there was fuel,
so more than 6 from fuel 7 on. -/
theorem run_polls_without_bound (fuel : Nat) :
    (run (checkoutEnv true alwaysProgressing) "checkout 42" fuel).returned = false ∧
      pollCount (run (checkoutEnv true alwaysProgressing) "checkout 42" fuel).trace = fuel := by
  rw [run_of_passes _ _ _ (checkoutEnv_passes alwaysProgressing)]
  obtain ⟨h1, h2⟩ := pollLoop_stuck (checkoutEnv true alwaysProgressing)
    (appOf (checkoutEnv true alwaysProgressing) "checkout 42")
    (fun _ => ⟨rfl, by
      show leadingSynced [("web", "Progressing")] ≠ 2
      decide⟩) fuel 0
    (pipelineTrace (checkoutEnv true alwaysProgressing) "checkout 42")
  rw [pollCount_pipelineTrace] at h2
  exact ⟨h1, by omega⟩

/-- C8 as stated fails: the first snapshot holds exactly two `Synced` resources, walked
after a `Progressing` one, and the loop does not stop after one pass; with fuel for three
passes it polls three times and has not returned. -/
theorem synced_behind_progressing_keeps_polling :
    (syncedBehind 0).2 = "" ∧ syncedIn (syncedBehind 0).1 = 2 ∧
      (run (checkoutEnv true syncedBehind) "checkout 42" 3).returned = false ∧
      pollCount (run (checkoutEnv true syncedBehind) "checkout 42" 3).trace = 3 := by
  decide

/-- C8 as amended (success timing).  For every sequence of error-free poll results in
which the first `k-1` snapshots each hold fewer than two `Synced` resources and the
`k`-th snapshot holds exactly two `Synced` resources which are the first two resources
walked, `run` issues exactly `k` polls and returns. -/
theorem success_timing (env : Env) (text : String) (k fuel : Nat)
    (hpass : pipelinePasses env text) (hk : 0 < k) (hfuel : k ≤ fuel)
    (hearly : ∀ i, i + 1 < k → (pollOf env text i).2 = "" ∧ syncedIn (pollOf env text i).1 < 2)
    (hmsg : (pollOf env text (k - 1)).2 = "")
    (hfirst : ∃ d1 d2 rest,
      (pollOf env text (k - 1)).1 = (d1, "Synced") :: (d2, "Synced") :: rest)
    (htwo : syncedIn (pollOf env text (k - 1)).1 = 2) :
    (run env text fuel).returned = true ∧ pollCount (run env text fuel).trace = k := by
  obtain ⟨j, rfl⟩ : ∃ j, k = j + 1 := ⟨k - 1, by omega⟩
  have hj : j + 1 - 1 = j := by omega
  rw [hj] at hmsg hfirst htwo
  have hlead : leadingSynced (pollOf env text j).1 = 2 := by
    obtain ⟨d1, d2, rest, hsnap⟩ := hfirst
    rw [hsnap] at htwo ⊢
    have hrest : syncedIn rest = 0 := by
      simp only [syncedIn] at htwo ⊢
      simpa using htwo
    have := leadingSynced_le rest
    simp [leadingSynced]
    omega
  rw [run_of_passes env text fuel hpass]
  obtain ⟨h1, h2⟩ := pollLoop_exact env (appOf env text) j 0 fuel (pipelineTrace env text)
    (by omega)
    (fun i hi => by
      rw [Nat.zero_add]
      obtain ⟨a, b⟩ := hearly i (by omega)
      have := leadingSynced_le (pollOf env text i).1
      exact ⟨a, by simp only [pollOf] at this b; omega⟩)
    (by rw [Nat.zero_add]; exact hmsg) (by rw [Nat.zero_add]; exact hlead)
  rw [pollCount_pipelineTrace] at h2
  exact ⟨h1, by omega⟩

/-- The end-to-end scenario: `web: Progressing`, then `web: Synced, worker: Synced`: two
polls, not six. -/
theorem success_timing_witness :
    (run (checkoutEnv true progressingThenSynced) "checkout 42" 7).returned = true ∧
      pollCount (run (checkoutEnv true progressingThenSynced) "checkout 42" 7).trace = 2 :=
  success_timing (checkoutEnv true progressingThenSynced) "checkout 42" 2 7
    (checkoutEnv_passes progressingThenSynced) (by decide) (by decide)
    (fun i hi => by
      have : i = 0 := by omega
      subst this
      exact ⟨rfl, by decide⟩)
    rfl ⟨"web", "worker", [], rfl⟩ (by decide)

end Main

end DeployBot
